import Mathlib

/-!
Verification of the facedata upload service (src/app.py) against its
specification.  The embedding below translates the pure logic of the
single HTTP handler module: enrollment sanitization, pathlib-style
suffix extraction, per-folder image counting, and the upload state
machine over a filesystem tree plus a one-table student store.
-/

/-! Character-level model.  Python's str.upper() and str.lower() are
modelled on the ASCII letter ranges (the sanitizer filter keeps only
ASCII characters, so non-ASCII case mapping is stripped either way). -/

/-- ASCII uppercasing of one character, modelling Python str.upper per
character (app.py line 49 uses raw.upper()). -/
def upperChar (c : Char) : Char :=
  if 97 ≤ c.toNat ∧ c.toNat ≤ 122 then Char.ofNat (c.toNat - 32) else c

/-- ASCII lowercasing of one character, modelling Python str.lower per
character (app.py lines 53 and 310 use .lower() on suffixes). -/
def lowerChar (c : Char) : Char :=
  if 65 ≤ c.toNat ∧ c.toNat ≤ 90 then Char.ofNat (c.toNat + 32) else c

/-- Whether a character is kept by the regex substitution
re.sub(r'[^A-Z0-9_-]', '', ·) of app.py line 49: uppercase ASCII
letter, digit, underscore, or hyphen. -/
def allowedChar (c : Char) : Bool :=
  (decide (65 ≤ c.toNat) && decide (c.toNat ≤ 90)) ||
  (decide (48 ≤ c.toNat) && decide (c.toNat ≤ 57)) ||
  decide (c.toNat = 95) || decide (c.toNat = 45)

/-- Python str.upper() lifted to strings. -/
def pyUpper (s : String) : String := String.mk (s.data.map upperChar)

/-- Python str.lower() lifted to strings. -/
def pyLower (s : String) : String := String.mk (s.data.map lowerChar)

/-- sanitize_enrollment from app.py lines 41-50: if the input is empty
return the empty string, otherwise uppercase it and strip every
character outside A-Z, 0-9, underscore, hyphen. -/
def sanitize_enrollment (raw : String) : String :=
  if raw = "" then ""
  else String.mk ((raw.data.map upperChar).filter allowedChar)

/-! Pathlib-style filename handling.  app.py line 310 computes
Path(file.filename).suffix.lower(); the suffix of a POSIX path is the
part of its final component from the last dot on, and is empty when
the last dot is the component's first character (dotfiles), its last
character, or absent. -/

/-- Split a character list on the slash separator. -/
def splitSlash : List Char → List (List Char)
  | [] => [[]]
  | c :: rest =>
    match splitSlash rest with
    | [] => [[]]
    | comp :: comps =>
      if c = '/' then [] :: comp :: comps else (c :: comp) :: comps

/-- Final path component, modelling pathlib's Path(s).name: empty and
single-dot components are dropped, the last remaining component is the
name (empty for paths like "", "/", "."). -/
def pathFinalComponent (s : String) : List Char :=
  (((splitSlash s.data).filter (fun comp => comp ≠ [] ∧ comp ≠ ['.'])).getLast?).getD []

/-- Index of the last dot of the name, scanned left to right. -/
def lastDotIdx : List Char → Nat → Option Nat → Option Nat
  | [], _, acc => acc
  | c :: rest, i, acc => lastDotIdx rest (i + 1) (if c = '.' then some i else acc)

/-- Suffix of a name per pathlib: name[i:] for i the last dot index
when 0 < i < length - 1, else empty. -/
def nameSuffix (name : List Char) : List Char :=
  match lastDotIdx name 0 none with
  | none => []
  | some i => if 0 < i ∧ i + 1 < name.length then name.drop i else []

/-- Path(s).suffix for the uploaded filename. -/
def pathSuffix (s : String) : String := String.mk (nameSuffix (pathFinalComponent s))

/-- Lowercased suffix of a filename, as computed at app.py lines 53
and 310: Path(p).suffix.lower(). -/
def extLower (s : String) : String := pyLower (pathSuffix s)

/-- ALLOWED_EXTS from app.py line 15. -/
def ALLOWED_EXTS : List String := [".png", ".jpg", ".jpeg"]

/-- MAX_FILE_BYTES from app.py line 14: 5 MiB. -/
def MAX_FILE_BYTES : Nat := 5 * 1024 * 1024

/-- count_images_in_folder from app.py lines 52-53: the number of
files in the folder whose lowercased suffix is an allowed image
extension.  A folder is modelled as the list of filenames it holds
(the upload service creates only plain files). -/
def count_images_in_folder (files : List String) : Nat :=
  (files.filter (fun p => decide (extLower p ∈ ALLOWED_EXTS))).length

/-- Two-digit zero-padded sequence number, from the format string
f"(image_count+1):02d" at app.py line 332. -/
def pad2 (n : Nat) : String := if n < 10 then "0" ++ Nat.repr n else Nat.repr n

/-! State of the service: the per-student folders under the data root
and the students table of the SQLite store.  Both are association
lists keyed by sanitized enrollment. -/

/-- Lookup in an association list keyed by strings. -/
def lookupA {α : Type} : List (String × α) → String → Option α
  | [], _ => none
  | (k, v) :: rest, c => if k = c then some v else lookupA rest c

/-- Update-or-append in an association list keyed by strings. -/
def setA {α : Type} : List (String × α) → String → α → List (String × α)
  | [], c, v => [(c, v)]
  | (k, w) :: rest, c, v =>
    if k = c then (c, v) :: rest else (k, w) :: setA rest c v

/-- Errors raised by the upload handler (HTTPException details of
app.py lines 300-355, in source order). -/
inductive UploadError where
  | enrollmentRequired
  | invalidEnrollment
  | unsupportedType
  | readFailure
  | fileTooLarge
  | limitReached
  | saveFailure
  | dbError
deriving DecidableEq

/-- Successful response body (app.py line 368); the preview url and
absolute path are omitted as they depend on the environment and a
random uuid. -/
structure UploadResponse where
  filename : String
  enrollment : String
deriving DecidableEq

/-- Mutable state touched by the handler: folders under the data root
(folder name to list of contained filenames) and the students table
(enrollment to image_count). -/
structure UploadState where
  folders : List (String × List String)
  db : List (String × Nat)
deriving DecidableEq

/-- Contents of a student folder; a folder that was never created is
empty (mkdir at app.py line 325 creates it on demand). -/
def folderOf (st : UploadState) (c : String) : List String :=
  (lookupA st.folders c).getD []

/-- image_count of a student as SELECT would report it; absent rows
count as 0. -/
def dbCount (st : UploadState) (c : String) : Nat :=
  (lookupA st.db c).getD 0

/-- INSERT OR IGNORE INTO students (enrollment, image_count) VALUES (c, 0)
from app.py line 344: a no-op when the primary key exists. -/
def insertOrIgnore (db : List (String × Nat)) (c : String) : List (String × Nat) :=
  match lookupA db c with
  | some _ => db
  | none => db ++ [(c, 0)]

/-- UPDATE students SET image_count = image_count + 1 WHERE enrollment = c
from app.py line 345. -/
def dbIncrement (db : List (String × Nat)) (c : String) : List (String × Nat) :=
  db.map (fun p => if p.1 = c then (p.1, p.2 + 1) else p)

/-- The target filename of app.py line 332: the count of existing
allowed-extension files plus one, zero-padded to two digits, followed
by the lowercased extension of the upload. -/
def nextFileName (st : UploadState) (clean ext : String) : String :=
  pad2 (count_images_in_folder (folderOf st clean) + 1) ++ ext

/-- Effect on a folder of writing a file (app.py lines 336-338):
open(..., "wb") replaces an existing file of the same name, otherwise
the name is added. -/
def writeFile (folder : List String) (fname : String) : List String :=
  if fname ∈ folder then folder else folder ++ [fname]

/-- State after the file write of app.py lines 336-338 succeeded. -/
def writtenState (st : UploadState) (clean ext : String) : UploadState :=
  UploadState.mk
    (setA st.folders clean (writeFile (folderOf st clean) (nextFileName st clean ext)))
    st.db

/-- State after the rollback of app.py lines 347-354: the database
transaction was rolled back (table untouched) and the just-written
file was unlinked, unless the unlink itself failed, in which case the
file is left orphaned. -/
def rollbackState (unlinkFails : Bool) (st : UploadState) (clean ext : String) : UploadState :=
  if unlinkFails then writtenState st clean ext
  else
    UploadState.mk
      (setA st.folders clean
        ((writeFile (folderOf st clean) (nextFileName st clean ext)).erase
          (nextFileName st clean ext)))
      st.db

/-- State after the write and the database upsert-and-increment of
app.py lines 336-346 both succeeded. -/
def commitState (st : UploadState) (clean ext : String) : UploadState :=
  { folders := (writtenState st clean ext).folders,
    db := dbIncrement (insertOrIgnore st.db clean) clean }

/-- upload_image, app.py lines 300-368.  The four Booleans model the
fallible I/O steps (reading the upload body, writing the file, the
database commit, and the rollback unlink); False means the operation
succeeds.  Returns the state after the call together with the HTTP
outcome. -/
def upload_image (readFails writeFails dbFails unlinkFails : Bool)
    (st : UploadState) (filename enrollment : String) (size : Nat) :
    UploadState × Except UploadError UploadResponse :=
  if enrollment = "" then (st, .error .enrollmentRequired)
  else if sanitize_enrollment enrollment = "" then (st, .error .invalidEnrollment)
  else if extLower filename ∉ ALLOWED_EXTS then (st, .error .unsupportedType)
  else if readFails then (st, .error .readFailure)
  else if size > MAX_FILE_BYTES then (st, .error .fileTooLarge)
  else if 10 ≤ count_images_in_folder (folderOf st (sanitize_enrollment enrollment)) then
    (st, .error .limitReached)
  else if writeFails then (st, .error .saveFailure)
  else if dbFails then
    (rollbackState unlinkFails st (sanitize_enrollment enrollment) (extLower filename),
     .error .dbError)
  else
    (commitState st (sanitize_enrollment enrollment) (extLower filename),
     .ok { filename := nextFileName st (sanitize_enrollment enrollment) (extLower filename),
           enrollment := sanitize_enrollment enrollment })

instance {ε α : Type} [DecidableEq ε] [DecidableEq α] : DecidableEq (Except ε α)
  | .error x, .error y =>
    decidable_of_iff (x = y) ⟨fun h => by rw [h], fun h => by cases h; rfl⟩
  | .error _, .ok _ => isFalse (fun hc => Except.noConfusion hc)
  | .ok _, .error _ => isFalse (fun hc => Except.noConfusion hc)
  | .ok x, .ok y =>
    decidable_of_iff (x = y) ⟨fun h => by rw [h], fun h => by cases h; rfl⟩

/-- Upload with every I/O step succeeding. -/
def uploadOk (st : UploadState) (filename enrollment : String) (size : Nat) :
    UploadState × Except UploadError UploadResponse :=
  upload_image false false false false st filename enrollment size

/-- State before any request: no folders, empty students table. -/
def emptyState : UploadState := { folders := [], db := [] }

/-- Run a list of upload requests (filename, enrollment, size) in
order, keeping the state each call returns. -/
def runUploads : UploadState → List (String × String × Nat) → UploadState
  | st, [] => st
  | st, (f, e, sz) :: rest => runUploads (uploadOk st f e sz).1 rest

/-- Run uploads for one enrollment, demanding that each succeeds. -/
def uploadSeq (enrollment : String) : UploadState → List (String × Nat) → Option UploadState
  | st, [] => some st
  | st, (f, sz) :: rest =>
    match uploadOk st f enrollment sz with
    | (st1, .ok _) => uploadSeq enrollment st1 rest
    | (_, .error _) => none

/-- The folder contents produced by k successful uploads: files
pad2 s ++ e, numbered consecutively from s. -/
def seqFiles : Nat → List String → List String
  | _, [] => []
  | s, e :: rest => (pad2 s ++ e) :: seqFiles (s + 1) rest

/-- list_students, app.py lines 370-373: every row of the students
table as an (enrollment, image_count) pair, in store order. -/
def list_students (st : UploadState) : List (String × Nat) := st.db


/-- Keys of an association list are pairwise distinct (the students
table has enrollment as primary key; the data root holds one folder
per name). -/
def keysNodup {α : Type} (l : List (String × α)) : Prop :=
  (l.map Prod.fst).Nodup

/-- A request file that passes the extension and size checks. -/
def validFile (p : String × Nat) : Prop :=
  extLower p.1 ∈ ALLOWED_EXTS ∧ p.2 ≤ MAX_FILE_BYTES

/-- Lowercased extensions of a list of (filename, size) requests. -/
def extsOf (files : List (String × Nat)) : List String :=
  files.map (fun p => extLower p.1)

/-- Whether an upload outcome is a success response. -/
def isOkResult {e a : Type} (x : Except e a) : Bool :=
  match x with
  | .ok _ => true
  | .error _ => false

/-- Reachable-state invariant: the students table has primary-key
unique rows, and every folder holds exactly the sequentially numbered
allowed-extension files 01..NN recorded by its image_count, with NN at
most 10. -/
def GoodState (st : UploadState) : Prop :=
  keysNodup st.db ∧
  ∀ c, ∃ exts, (∀ x ∈ exts, x ∈ ALLOWED_EXTS) ∧ exts.length ≤ 10 ∧
    folderOf st c = seqFiles 1 exts ∧ dbCount st c = exts.length

instance (p : String × Nat) : Decidable (validFile p) :=
  inferInstanceAs (Decidable (extLower p.1 ∈ ALLOWED_EXTS ∧ p.2 ≤ MAX_FILE_BYTES))

instance {α : Type} (l : List (String × α)) : Decidable (keysNodup l) :=
  inferInstanceAs (Decidable (l.map Prod.fst).Nodup)

/-! Facts about the character model and the string helpers. -/

theorem toNat_ofNat_small {n : Nat} (h : n < 55296) : (Char.ofNat n).toNat = n := by
  rw [Char.ofNat, dif_pos (Or.inl h)]
  rfl

theorem allowedChar_toNat {c : Char} (h : allowedChar c = true) : c.toNat ≤ 95 := by
  simp only [allowedChar, Bool.or_eq_true, Bool.and_eq_true, decide_eq_true_eq] at h
  omega

theorem upperChar_of_allowed {c : Char} (h : allowedChar c = true) : upperChar c = c := by
  have := allowedChar_toNat h
  rw [upperChar, if_neg (by omega)]

theorem upperChar_idem (c : Char) : upperChar (upperChar c) = upperChar c := by
  by_cases h : 97 ≤ c.toNat ∧ c.toNat ≤ 122
  · have h1 : upperChar c = Char.ofNat (c.toNat - 32) := by rw [upperChar, if_pos h]
    have h2 : (Char.ofNat (c.toNat - 32)).toNat = c.toNat - 32 :=
      toNat_ofNat_small (by omega)
    rw [h1, upperChar, if_neg (by rw [h2]; omega)]
  · have h1 : upperChar c = c := by rw [upperChar, if_neg h]
    rw [h1, h1]

theorem allowedChar_upperChar_of_lower {c : Char}
    (h1 : 97 ≤ c.toNat) (h2 : c.toNat ≤ 122) : allowedChar (upperChar c) = true := by
  have hu : upperChar c = Char.ofNat (c.toNat - 32) := by rw [upperChar, if_pos ⟨h1, h2⟩]
  have ht : (Char.ofNat (c.toNat - 32)).toNat = c.toNat - 32 :=
    toNat_ofNat_small (by omega)
  rw [hu]
  simp only [allowedChar, Bool.or_eq_true, Bool.and_eq_true, decide_eq_true_eq, ht]
  omega

theorem data_mk (l : List Char) : (String.mk l).data = l := rfl

theorem mk_eq_empty_iff (l : List Char) : String.mk l = "" ↔ l = [] := by
  constructor
  · intro h
    exact congrArg String.data h
  · intro h; rw [h]

theorem sanitize_data (s : String) :
    (sanitize_enrollment s).data = (s.data.map upperChar).filter allowedChar := by
  by_cases hs : s = ""
  · subst hs; rfl
  · rw [sanitize_enrollment, if_neg hs]

/-! Association-list lemmas. -/

theorem lookupA_cons {α : Type} (k : String) (v : α) (rest : List (String × α)) (c : String) :
    lookupA ((k, v) :: rest) c = if k = c then some v else lookupA rest c := rfl

theorem setA_cons {α : Type} (k : String) (w : α) (rest : List (String × α)) (c : String) (v : α) :
    setA ((k, w) :: rest) c v = if k = c then (c, v) :: rest else (k, w) :: setA rest c v := rfl

theorem dbIncrement_cons (k : String) (w : Nat) (rest : List (String × Nat)) (c : String) :
    dbIncrement ((k, w) :: rest) c =
      (if k = c then (k, w + 1) else (k, w)) :: dbIncrement rest c := rfl

theorem lookupA_setA_self {α : Type} (l : List (String × α)) (c : String) (v : α) :
    lookupA (setA l c v) c = some v := by
  induction l with
  | nil => simp [setA, lookupA]
  | cons p rest ih =>
    obtain ⟨k, w⟩ := p
    rw [setA_cons]
    by_cases h : k = c
    · rw [if_pos h, lookupA_cons, if_pos rfl]
    · rw [if_neg h, lookupA_cons, if_neg h, ih]

theorem lookupA_setA_ne {α : Type} (l : List (String × α)) (c c' : String) (v : α)
    (h : c' ≠ c) : lookupA (setA l c v) c' = lookupA l c' := by
  induction l with
  | nil => simp [setA, lookupA, if_neg (Ne.symm h)]
  | cons p rest ih =>
    obtain ⟨k, w⟩ := p
    rw [setA_cons]
    by_cases hk : k = c
    · rw [if_pos hk, lookupA_cons, lookupA_cons, if_neg (Ne.symm h), hk,
        if_neg (Ne.symm h)]
    · rw [if_neg hk, lookupA_cons, lookupA_cons, ih]

theorem lookupA_eq_none_iff {α : Type} (l : List (String × α)) (c : String) :
    lookupA l c = none ↔ c ∉ l.map Prod.fst := by
  induction l with
  | nil => simp [lookupA]
  | cons p rest ih =>
    obtain ⟨k, w⟩ := p
    rw [lookupA_cons]
    by_cases hk : k = c
    · subst hk; simp
    · simp only [List.map_cons, List.mem_cons, if_neg hk, ih]
      constructor
      · intro hm hc
        rcases hc with hc | hc
        · exact hk hc.symm
        · exact hm hc
      · intro hm hc
        exact hm (Or.inr hc)

theorem mem_of_lookupA {α : Type} {l : List (String × α)} {c : String} {v : α}
    (h : lookupA l c = some v) : (c, v) ∈ l := by
  induction l with
  | nil => simp [lookupA] at h
  | cons p rest ih =>
    obtain ⟨k, w⟩ := p
    rw [lookupA_cons] at h
    by_cases hk : k = c
    · rw [if_pos hk] at h
      subst hk
      cases h
      exact List.mem_cons_self _ _
    · rw [if_neg hk] at h
      exact List.mem_cons_of_mem _ (ih h)

theorem lookupA_of_mem_nodup {α : Type} {l : List (String × α)} {c : String} {v : α}
    (hn : keysNodup l) (h : (c, v) ∈ l) : lookupA l c = some v := by
  induction l with
  | nil => simp at h
  | cons p rest ih =>
    obtain ⟨k, w⟩ := p
    rw [keysNodup, List.map_cons, List.nodup_cons] at hn
    rw [lookupA_cons]
    rcases List.mem_cons.mp h with h1 | h1
    · cases h1
      rw [if_pos rfl]
    · have hk : k ≠ c := by
        intro hkc
        subst hkc
        exact hn.1 (List.mem_map.mpr ⟨(k, v), h1, rfl⟩)
      rw [if_neg hk]
      exact ih hn.2 h1

theorem dbIncrement_keys (db : List (String × Nat)) (c : String) :
    (dbIncrement db c).map Prod.fst = db.map Prod.fst := by
  induction db with
  | nil => rfl
  | cons p rest ih =>
    obtain ⟨k, w⟩ := p
    rw [dbIncrement_cons, List.map_cons, List.map_cons, ih]
    by_cases hk : k = c
    · rw [if_pos hk]
    · rw [if_neg hk]

theorem lookupA_dbIncrement_self (db : List (String × Nat)) (c : String) :
    lookupA (dbIncrement db c) c = (lookupA db c).map (· + 1) := by
  induction db with
  | nil => rfl
  | cons p rest ih =>
    obtain ⟨k, w⟩ := p
    rw [dbIncrement_cons, lookupA_cons]
    by_cases hk : k = c
    · rw [if_pos hk, if_pos hk, lookupA_cons, if_pos hk]
      rfl
    · rw [if_neg hk, if_neg hk, lookupA_cons, if_neg hk, ih]

theorem lookupA_dbIncrement_ne (db : List (String × Nat)) (c c' : String)
    (h : c' ≠ c) : lookupA (dbIncrement db c) c' = lookupA db c' := by
  induction db with
  | nil => rfl
  | cons p rest ih =>
    obtain ⟨k, w⟩ := p
    rw [dbIncrement_cons, lookupA_cons]
    by_cases hk : k = c
    · rw [if_pos hk, if_neg (by rw [hk]; exact Ne.symm h), lookupA_cons,
        if_neg (by rw [hk]; exact Ne.symm h), ih]
    · rw [if_neg hk, lookupA_cons]
      by_cases hk' : k = c'
      · rw [if_pos hk', if_pos hk']
      · rw [if_neg hk', if_neg hk', ih]

theorem lookupA_append_single_ne {α : Type} (l : List (String × α)) (c c' : String)
    (v : α) (h : c' ≠ c) : lookupA (l ++ [(c, v)]) c' = lookupA l c' := by
  induction l with
  | nil => simp [lookupA, if_neg (Ne.symm h)]
  | cons p rest ih =>
    obtain ⟨k, w⟩ := p
    rw [List.cons_append, lookupA_cons, lookupA_cons, ih]

theorem lookupA_append_single_self {α : Type} (l : List (String × α)) (c : String)
    (v : α) (h : lookupA l c = none) : lookupA (l ++ [(c, v)]) c = some v := by
  induction l with
  | nil => simp [lookupA]
  | cons p rest ih =>
    obtain ⟨k, w⟩ := p
    rw [lookupA_cons] at h
    rw [List.cons_append, lookupA_cons]
    by_cases hk : k = c
    · rw [if_pos hk] at h
      cases h
    · rw [if_neg hk] at h
      rw [if_neg hk]
      exact ih h

theorem lookupA_insertOrIgnore_ne (db : List (String × Nat)) (c c' : String)
    (h : c' ≠ c) : lookupA (insertOrIgnore db c) c' = lookupA db c' := by
  rw [insertOrIgnore]
  cases hdb : lookupA db c with
  | some v => rfl
  | none => exact lookupA_append_single_ne db c c' 0 h

theorem dbCount_upsert (db : List (String × Nat)) (c : String) :
    lookupA (dbIncrement (insertOrIgnore db c) c) c =
      some ((lookupA db c).getD 0 + 1) := by
  rw [lookupA_dbIncrement_self, insertOrIgnore]
  cases hdb : lookupA db c with
  | some v => rw [hdb]; rfl
  | none => rw [lookupA_append_single_self db c 0 hdb]; rfl

theorem insertOrIgnore_keysNodup {db : List (String × Nat)} {c : String}
    (hn : keysNodup db) : keysNodup (insertOrIgnore db c) := by
  rw [insertOrIgnore]
  cases hdb : lookupA db c with
  | some v => exact hn
  | none =>
    rw [keysNodup, List.map_append, List.nodup_append]
    refine ⟨hn, List.nodup_singleton _, ?_⟩
    intro x hx hx'
    simp at hx'
    rw [hx'] at hx
    exact (lookupA_eq_none_iff db c).mp hdb hx

theorem dbIncrement_keysNodup {db : List (String × Nat)} {c : String}
    (hn : keysNodup db) : keysNodup (dbIncrement db c) := by
  rw [keysNodup, dbIncrement_keys]
  exact hn

/-! Sequence-numbered filename lemmas. -/

theorem seqFiles_cons (s : Nat) (e : String) (rest : List String) :
    seqFiles s (e :: rest) = (pad2 s ++ e) :: seqFiles (s + 1) rest := rfl

theorem pad2_data_length {i : Nat} (h1 : 1 ≤ i) (h2 : i ≤ 10) :
    (pad2 i).data.length = 2 := by
  interval_cases i <;> decide

theorem pad2_inj {i j : Nat} (h1 : 1 ≤ i) (h2 : i ≤ 10) (h3 : 1 ≤ j) (h4 : j ≤ 10)
    (h : pad2 i = pad2 j) : i = j := by
  interval_cases i <;> interval_cases j <;> revert h <;> decide

theorem extLower_pad2 {i : Nat} {e : String} (h1 : 1 ≤ i) (h2 : i ≤ 10)
    (he : e ∈ ALLOWED_EXTS) : extLower (pad2 i ++ e) = e := by
  have he' : e = ".png" ∨ e = ".jpg" ∨ e = ".jpeg" := by
    simpa [ALLOWED_EXTS] using he
  rcases he' with rfl | rfl | rfl <;> interval_cases i <;> decide

theorem string_append_inj {a b e f : String} (ha : a.data.length = b.data.length)
    (h : a ++ e = b ++ f) : a = b ∧ e = f := by
  have hd := congrArg String.data h
  rw [String.data_append, String.data_append] at hd
  obtain ⟨h1, h2⟩ := List.append_inj hd ha
  exact ⟨String.ext h1, String.ext h2⟩

theorem seqFiles_append (s : Nat) (l : List String) (e : String) :
    seqFiles s (l ++ [e]) = seqFiles s l ++ [pad2 (s + l.length) ++ e] := by
  induction l generalizing s with
  | nil => simp [seqFiles]
  | cons x rest ih =>
    rw [List.cons_append, seqFiles_cons, seqFiles_cons, ih, List.cons_append]
    have hidx : s + 1 + rest.length = s + (x :: rest).length := by
      simp
      omega
    rw [hidx]

theorem mem_seqFiles {x : String} {l : List String} :
    ∀ {s : Nat}, x ∈ seqFiles s l →
      ∃ j e, s ≤ j ∧ j < s + l.length ∧ e ∈ l ∧ x = pad2 j ++ e := by
  induction l with
  | nil => intro s h; simp [seqFiles] at h
  | cons y rest ih =>
    intro s h
    rw [seqFiles_cons] at h
    rcases List.mem_cons.mp h with h1 | h1
    · exact ⟨s, y, Nat.le_refl s, by rw [List.length_cons]; omega,
        List.mem_cons_self y rest, h1⟩
    · obtain ⟨j, e, hj1, hj2, he, hx⟩ := ih h1
      exact ⟨j, e, by omega, by rw [List.length_cons]; omega,
        List.mem_cons_of_mem y he, hx⟩

theorem count_cons (x : String) (xs : List String) :
    count_images_in_folder (x :: xs) =
      (if extLower x ∈ ALLOWED_EXTS then 1 else 0) + count_images_in_folder xs := by
  rw [count_images_in_folder, count_images_in_folder, List.filter_cons]
  by_cases hx : extLower x ∈ ALLOWED_EXTS
  · rw [if_pos (by simpa using hx), if_pos hx, List.length_cons]
    omega
  · rw [if_neg (by simpa using hx), if_neg hx]
    omega

theorem count_seqFiles {l : List String} (hall : ∀ e ∈ l, e ∈ ALLOWED_EXTS) :
    ∀ {s : Nat}, 1 ≤ s → s + l.length ≤ 11 →
      count_images_in_folder (seqFiles s l) = l.length := by
  induction l with
  | nil => intro s _ _; rfl
  | cons e rest ih =>
    intro s h1 h2
    have he : e ∈ ALLOWED_EXTS := hall e (List.mem_cons_self e rest)
    have hx : extLower (pad2 s ++ e) = e :=
      extLower_pad2 h1 (by simp at h2; omega) he
    rw [seqFiles_cons, count_cons, hx, if_pos he,
      ih (fun x hx2 => hall x (List.mem_cons_of_mem e hx2)) (by omega)
        (by simp at h2; omega)]
    rw [List.length_cons]
    omega

theorem next_not_mem_seqFiles {l : List String} {ext : String} (hlen : l.length ≤ 9) :
    pad2 (l.length + 1) ++ ext ∉ seqFiles 1 l := by
  intro hmem
  obtain ⟨j, e, hj1, hj2, _, hx⟩ := mem_seqFiles hmem
  have hlens : (pad2 (l.length + 1)).data.length = (pad2 j).data.length := by
    rw [pad2_data_length (by omega) (by omega), pad2_data_length (by omega) (by omega)]
  obtain ⟨hp, _⟩ := string_append_inj hlens hx
  have := pad2_inj (by omega) (by omega) (by omega) (by omega) hp
  omega

/-! Characterization of one upload call. -/

theorem uploadOk_cases (st : UploadState) (f e : String) (sz : Nat) :
    (uploadOk st f e sz).1 = st ∨
      (e ≠ "" ∧ sanitize_enrollment e ≠ "" ∧ extLower f ∈ ALLOWED_EXTS ∧
       sz ≤ MAX_FILE_BYTES ∧
       count_images_in_folder (folderOf st (sanitize_enrollment e)) ≤ 9 ∧
       uploadOk st f e sz =
         (commitState st (sanitize_enrollment e) (extLower f),
          Except.ok (UploadResponse.mk
            (nextFileName st (sanitize_enrollment e) (extLower f))
            (sanitize_enrollment e)))) := by
  unfold uploadOk upload_image
  by_cases h1 : e = ""
  · rw [if_pos h1]; left; rfl
  rw [if_neg h1]
  by_cases h2 : sanitize_enrollment e = ""
  · rw [if_pos h2]; left; rfl
  rw [if_neg h2]
  by_cases h3 : extLower f ∉ ALLOWED_EXTS
  · rw [if_pos h3]; left; rfl
  rw [if_neg h3, if_neg (by decide : ¬ (false = true))]
  by_cases h4 : sz > MAX_FILE_BYTES
  · rw [if_pos h4]; left; rfl
  rw [if_neg h4]
  by_cases h5 : 10 ≤ count_images_in_folder (folderOf st (sanitize_enrollment e))
  · rw [if_pos h5]; left; rfl
  rw [if_neg h5, if_neg (by decide : ¬ (false = true)),
    if_neg (by decide : ¬ (false = true))]
  right
  exact ⟨h1, h2, not_not.mp h3, by omega, by omega, rfl⟩

theorem uploadOk_success (st : UploadState) (f e : String) (sz : Nat)
    (he : e ≠ "") (hc : sanitize_enrollment e ≠ "")
    (hx : extLower f ∈ ALLOWED_EXTS) (hsz : sz ≤ MAX_FILE_BYTES)
    (hcnt : count_images_in_folder (folderOf st (sanitize_enrollment e)) ≤ 9) :
    uploadOk st f e sz =
      (commitState st (sanitize_enrollment e) (extLower f),
       Except.ok (UploadResponse.mk
         (nextFileName st (sanitize_enrollment e) (extLower f))
         (sanitize_enrollment e))) := by
  unfold uploadOk upload_image
  rw [if_neg he, if_neg hc, if_neg (not_not_intro hx),
    if_neg (by decide : ¬ (false = true)), if_neg (by omega : ¬ sz > MAX_FILE_BYTES),
    if_neg (by omega :
      ¬ 10 ≤ count_images_in_folder (folderOf st (sanitize_enrollment e))),
    if_neg (by decide : ¬ (false = true)), if_neg (by decide : ¬ (false = true))]

theorem commitState_folderOf_self {st : UploadState} {clean ext : String} {exts : List String}
    (hfol : folderOf st clean = seqFiles 1 exts)
    (hlen : exts.length ≤ 9)
    (hcnt : count_images_in_folder (folderOf st clean) = exts.length) :
    folderOf (commitState st clean ext) clean = seqFiles 1 (exts ++ [ext]) := by
  rw [commitState, writtenState]
  show (lookupA (setA st.folders clean _) clean).getD [] = _
  rw [lookupA_setA_self]
  show writeFile (folderOf st clean) (nextFileName st clean ext) = _
  rw [nextFileName, hcnt, hfol, writeFile, if_neg (next_not_mem_seqFiles hlen),
    seqFiles_append]
  rw [(by omega : 1 + exts.length = exts.length + 1)]

theorem commitState_folderOf_ne {st : UploadState} {clean ext c : String}
    (h : c ≠ clean) : folderOf (commitState st clean ext) c = folderOf st c := by
  rw [commitState, writtenState]
  show (lookupA (setA st.folders clean _) c).getD [] = _
  rw [lookupA_setA_ne _ _ _ _ h]
  rfl

theorem commitState_dbCount_self (st : UploadState) (clean ext : String) :
    dbCount (commitState st clean ext) clean = dbCount st clean + 1 := by
  rw [commitState]
  show (lookupA (dbIncrement (insertOrIgnore st.db clean) clean) clean).getD 0 = _
  rw [dbCount_upsert]
  rfl

theorem commitState_dbCount_ne {st : UploadState} {clean ext c : String}
    (h : c ≠ clean) : dbCount (commitState st clean ext) c = dbCount st c := by
  rw [commitState]
  show (lookupA (dbIncrement (insertOrIgnore st.db clean) clean) c).getD 0 = _
  rw [lookupA_dbIncrement_ne _ _ _ h, lookupA_insertOrIgnore_ne _ _ _ h]
  rfl

theorem commitState_keysNodup {st : UploadState} {clean ext : String}
    (hn : keysNodup st.db) : keysNodup (commitState st clean ext).db :=
  dbIncrement_keysNodup (insertOrIgnore_keysNodup hn)

theorem commitState_good {st : UploadState} {clean ext : String}
    (hg : GoodState st) (hx : ext ∈ ALLOWED_EXTS)
    (hcnt : count_images_in_folder (folderOf st clean) ≤ 9) :
    GoodState (commitState st clean ext) := by
  obtain ⟨hn, hfold⟩ := hg
  obtain ⟨exts, hallow, hlen10, hfol, hdbc⟩ := hfold clean
  have hcount : count_images_in_folder (folderOf st clean) = exts.length := by
    rw [hfol]
    exact count_seqFiles hallow (by omega) (by omega)
  have hlen9 : exts.length ≤ 9 := by omega
  refine ⟨commitState_keysNodup hn, fun c => ?_⟩
  by_cases hc : c = clean
  · subst hc
    refine ⟨exts ++ [ext], ?_, ?_, ?_, ?_⟩
    · intro x hmem
      rcases List.mem_append.mp hmem with hm | hm
      · exact hallow x hm
      · simp at hm
        rw [hm]
        exact hx
    · rw [List.length_append]
      simp
      omega
    · exact commitState_folderOf_self hfol hlen9 hcount
    · rw [commitState_dbCount_self, hdbc, List.length_append]
      simp
  · obtain ⟨exts', hallow', hlen', hfol', hdbc'⟩ := hfold c
    exact ⟨exts', hallow', hlen', by rw [commitState_folderOf_ne hc]; exact hfol',
      by rw [commitState_dbCount_ne hc]; exact hdbc'⟩

theorem good_emptyState : GoodState emptyState := by
  refine ⟨List.nodup_nil, fun c => ⟨[], by simp, by simp, rfl, rfl⟩⟩

theorem uploadOk_preserves_good (st : UploadState) (f e : String) (sz : Nat)
    (hg : GoodState st) : GoodState (uploadOk st f e sz).1 := by
  rcases uploadOk_cases st f e sz with h | ⟨_, _, hx, _, hcnt, heq⟩
  · rw [h]; exact hg
  · rw [heq]; exact commitState_good hg hx hcnt

theorem runUploads_good (ops : List (String × String × Nat)) :
    ∀ st : UploadState, GoodState st → GoodState (runUploads st ops) := by
  induction ops with
  | nil => intro st hg; exact hg
  | cons op rest ih =>
    intro st hg
    obtain ⟨f, e, sz⟩ := op
    exact ih _ (uploadOk_preserves_good st f e sz hg)

/-! Sanitizer theorems. -/

theorem filtered_fixed (l : List Char) :
    ((l.map upperChar).filter allowedChar).map upperChar =
      (l.map upperChar).filter allowedChar := by
  rw [List.map_congr_left
    (fun a ha => upperChar_of_allowed (List.of_mem_filter ha))]
  exact List.map_id' _

theorem sanitize_idem (s : String) :
    sanitize_enrollment (sanitize_enrollment s) = sanitize_enrollment s := by
  apply String.ext
  rw [sanitize_data, sanitize_data, filtered_fixed,
    List.filter_eq_self.mpr (fun a ha => List.of_mem_filter ha)]

theorem sanitize_pyUpper (s : String) :
    sanitize_enrollment (pyUpper s) = sanitize_enrollment s := by
  apply String.ext
  rw [sanitize_data, sanitize_data]
  have hd : (pyUpper s).data = s.data.map upperChar := rfl
  rw [hd, List.map_map]
  have hm : s.data.map (upperChar ∘ upperChar) = s.data.map upperChar :=
    List.map_congr_left (fun a _ => upperChar_idem a)
  rw [hm]

/-- C3: for every raw enrollment input, the sanitizer output contains
only characters from A-Z, 0-9, underscore, hyphen, and the sanitizer
is idempotent: sanitizing an already-sanitized value returns it
unchanged. -/
theorem C3_sanitizer_charset_and_idempotent (s : String) :
    (sanitize_enrollment s).data.all allowedChar = true ∧
    sanitize_enrollment (sanitize_enrollment s) = sanitize_enrollment s := by
  constructor
  · rw [sanitize_data, List.all_eq_true]
    intro x hx
    exact List.of_mem_filter hx
  · exact sanitize_idem s

/-- C10: the sanitizer is case-insensitive.  Sanitizing a string and
sanitizing its uppercased form agree, two raw strings with the same
uppercasing sanitize identically (hence map to the same student
folder), and a lowercase ASCII letter is converted to its uppercase
form (codepoint minus 32), which the filter retains rather than
strips. -/
theorem C10_sanitizer_case_insensitive (s t : String) (c : Char)
    (hst : pyUpper s = pyUpper t) (h1 : 97 ≤ c.toNat) (h2 : c.toNat ≤ 122) :
    sanitize_enrollment s = sanitize_enrollment (pyUpper s) ∧
    sanitize_enrollment s = sanitize_enrollment t ∧
    (upperChar c).toNat = c.toNat - 32 ∧
    allowedChar (upperChar c) = true := by
  refine ⟨(sanitize_pyUpper s).symm, ?_, ?_, allowedChar_upperChar_of_lower h1 h2⟩
  · apply String.ext
    rw [sanitize_data, sanitize_data]
    have hd : s.data.map upperChar = t.data.map upperChar := congrArg String.data hst
    rw [hd]
  · rw [upperChar, if_pos ⟨h1, h2⟩]
    exact toNat_ofNat_small (by omega)

/-- C10 witness: the hypotheses are satisfiable, e.g. for the pair
"ab-1", "Ab-1" and the letter a. -/
theorem C10_sanitizer_case_insensitive_witness :
    pyUpper "ab-1" = pyUpper "Ab-1" ∧ 97 ≤ 'a'.toNat ∧ 'a'.toNat ≤ 122 ∧
    (sanitize_enrollment "ab-1" = sanitize_enrollment (pyUpper "ab-1") ∧
     sanitize_enrollment "ab-1" = sanitize_enrollment "Ab-1" ∧
     (upperChar 'a').toNat = 'a'.toNat - 32 ∧
     allowedChar (upperChar 'a') = true) :=
  ⟨by decide, by decide, by decide,
   C10_sanitizer_case_insensitive "ab-1" "Ab-1" 'a' (by decide) (by decide) (by decide)⟩

/-! Error-path theorems. -/

/-- C4 counterexample: the empty enrollment sanitizes to empty, yet
the handler rejects it with the enrollment-required error of app.py
line 304, not the invalid-enrollment error of line 307. -/
theorem C4_empty_enrollment_gets_required_error :
    sanitize_enrollment "" = "" ∧
    (upload_image false false false false emptyState "a.png" "" 0).2 =
      Except.error UploadError.enrollmentRequired ∧
    UploadError.enrollmentRequired ≠ UploadError.invalidEnrollment :=
  ⟨rfl, rfl, by decide⟩

/-- C4 amended: every nonempty enrollment that sanitizes to the empty
string is rejected with the invalid-enrollment error; the empty
enrollment itself is rejected with the enrollment-required error.
Either way no state changes, for any I/O outcome. -/
theorem C4_sanitize_empty_rejected (r w d u : Bool) (st : UploadState)
    (f e : String) (sz : Nat) (he : e ≠ "") (hc : sanitize_enrollment e = "") :
    upload_image r w d u st f e sz = (st, Except.error UploadError.invalidEnrollment) ∧
    upload_image r w d u st f "" sz = (st, Except.error UploadError.enrollmentRequired) := by
  constructor
  · unfold upload_image
    rw [if_neg he, if_pos hc]
  · unfold upload_image
    rw [if_pos rfl]

/-- C4 witness: instantiated at the whitespace-only and star-only
examples of the specification. -/
theorem C4_sanitize_empty_rejected_witness :
    ("***" ≠ "" ∧ sanitize_enrollment "***" = "") ∧
    ("   " ≠ "" ∧ sanitize_enrollment "   " = "") ∧
    (upload_image false false false false emptyState "a.png" "***" 7 =
       (emptyState, Except.error UploadError.invalidEnrollment) ∧
     upload_image false false false false emptyState "a.png" "" 7 =
       (emptyState, Except.error UploadError.enrollmentRequired)) ∧
    (upload_image true true true true emptyState "b.jpg" "   " 7 =
       (emptyState, Except.error UploadError.invalidEnrollment) ∧
     upload_image true true true true emptyState "b.jpg" "" 7 =
       (emptyState, Except.error UploadError.enrollmentRequired)) :=
  ⟨⟨by decide, by decide⟩, ⟨by decide, by decide⟩,
   C4_sanitize_empty_rejected false false false false emptyState "a.png" "***" 7
     (by decide) (by decide),
   C4_sanitize_empty_rejected true true true true emptyState "b.jpg" "   " 7
     (by decide) (by decide)⟩

theorem upload_ne_unsupported_of_allowed (r w d u : Bool) (st : UploadState)
    (f e : String) (sz : Nat) (hx : extLower f ∈ ALLOWED_EXTS) :
    (upload_image r w d u st f e sz).2 ≠ Except.error UploadError.unsupportedType := by
  unfold upload_image
  split_ifs with h1 h2 h3 <;> simp at *

/-- C5 counterexample: for an upload whose extension is not allowed
but whose enrollment is empty, the handler rejects with the
enrollment-required error, not the unsupported-type error, because
the enrollment checks of app.py lines 303-307 run first. -/
theorem C5_gif_with_empty_enrollment_error :
    extLower "a.gif" ∉ ALLOWED_EXTS ∧
    (upload_image false false false false emptyState "a.gif" "" 0).2 =
      Except.error UploadError.enrollmentRequired ∧
    UploadError.enrollmentRequired ≠ UploadError.unsupportedType :=
  ⟨by decide, rfl, by decide⟩

/-- C5 amended: once the enrollment checks pass, an upload is rejected
with the unsupported-type error exactly when the lowercased extension
is not among .png, .jpg, .jpeg; an upload with extension .gif never
succeeds regardless of the enrollment; and a .JPG filename passes the
extension check since matching is case-insensitive. -/
theorem C5_unsupported_type_characterization (r w d u : Bool) (st : UploadState)
    (f e : String) (sz : Nat) (he : e ≠ "") (hc : sanitize_enrollment e ≠ "") :
    ((upload_image r w d u st f e sz).2 = Except.error UploadError.unsupportedType ↔
      extLower f ∉ ALLOWED_EXTS) ∧
    (∀ (r' w' d' u' : Bool) (st' : UploadState) (f' e' : String) (sz' : Nat),
      extLower f' = ".gif" →
      isOkResult (upload_image r' w' d' u' st' f' e' sz').2 = false) ∧
    extLower "photo.JPG" = ".jpg" ∧ ".jpg" ∈ ALLOWED_EXTS := by
  refine ⟨⟨?_, ?_⟩, ?_, by decide, by decide⟩
  · intro h
    by_contra hmem
    exact upload_ne_unsupported_of_allowed r w d u st f e sz hmem h
  · intro hnot
    unfold upload_image
    rw [if_neg he, if_neg hc, if_pos hnot]
  · intro r' w' d' u' st' f' e' sz' hgif
    have hnot : extLower f' ∉ ALLOWED_EXTS := by
      rw [hgif]
      decide
    unfold upload_image
    by_cases h1 : e' = ""
    · rw [if_pos h1]
      rfl
    rw [if_neg h1]
    by_cases h2 : sanitize_enrollment e' = ""
    · rw [if_pos h2]
      rfl
    rw [if_neg h2, if_pos hnot]
    rfl

/-- C5 witness: the hypotheses hold for enrollment "A". -/
theorem C5_unsupported_type_characterization_witness :
    ("A" ≠ "" ∧ sanitize_enrollment "A" ≠ "") ∧
    (((upload_image false false false false emptyState "x.gif" "A" 9).2 =
        Except.error UploadError.unsupportedType ↔
      extLower "x.gif" ∉ ALLOWED_EXTS) ∧
     (∀ (r' w' d' u' : Bool) (st' : UploadState) (f' e' : String) (sz' : Nat),
       extLower f' = ".gif" →
       isOkResult (upload_image r' w' d' u' st' f' e' sz').2 = false) ∧
     extLower "photo.JPG" = ".jpg" ∧ ".jpg" ∈ ALLOWED_EXTS) :=
  ⟨⟨by decide, by decide⟩,
   C5_unsupported_type_characterization false false false false emptyState
     "x.gif" "A" 9 (by decide) (by decide)⟩

/-- C6: an otherwise-valid upload (enrollment checks and extension
check pass, body read succeeds) whose body exceeds 5 MiB is rejected
with the file-too-large error and changes nothing, while a body of at
most 5 MiB is never rejected by the size check. -/
theorem C6_size_limit (st : UploadState) (f e : String) (sz : Nat)
    (he : e ≠ "") (hc : sanitize_enrollment e ≠ "") (hx : extLower f ∈ ALLOWED_EXTS) :
    (MAX_FILE_BYTES < sz →
      uploadOk st f e sz = (st, Except.error UploadError.fileTooLarge)) ∧
    (sz ≤ MAX_FILE_BYTES →
      (uploadOk st f e sz).2 ≠ Except.error UploadError.fileTooLarge) := by
  constructor
  · intro hbig
    unfold uploadOk upload_image
    rw [if_neg he, if_neg hc, if_neg (not_not_intro hx),
      if_neg (by decide : ¬ (false = true)), if_pos hbig]
  · intro hsmall
    unfold uploadOk upload_image
    rw [if_neg he, if_neg hc, if_neg (not_not_intro hx),
      if_neg (by decide : ¬ (false = true)),
      if_neg (by omega : ¬ sz > MAX_FILE_BYTES)]
    split_ifs <;> simp

/-- C6 witness: instantiated at enrollment "A" and filename x.png,
showing both a 5 MiB + 1 rejection and a small-body acceptance by the
size check. -/
theorem C6_size_limit_witness :
    ("A" ≠ "" ∧ sanitize_enrollment "A" ≠ "" ∧ extLower "x.png" ∈ ALLOWED_EXTS) ∧
    ((MAX_FILE_BYTES < 5 * 1024 * 1024 + 1 →
       uploadOk emptyState "x.png" "A" (5 * 1024 * 1024 + 1) =
         (emptyState, Except.error UploadError.fileTooLarge)) ∧
     (5 * 1024 * 1024 + 1 ≤ MAX_FILE_BYTES →
       (uploadOk emptyState "x.png" "A" (5 * 1024 * 1024 + 1)).2 ≠
         Except.error UploadError.fileTooLarge)) :=
  ⟨⟨by decide, by decide, by decide⟩,
   C6_size_limit emptyState "x.png" "A" (5 * 1024 * 1024 + 1)
     (by decide) (by decide) (by decide)⟩

/-- C9 counterexample: a filename with no extension uploaded together
with an empty enrollment is rejected with the enrollment-required
error, not the unsupported-type error, because the enrollment checks
run first. -/
theorem C9_no_suffix_empty_enrollment :
    pathSuffix "photo" = "" ∧
    (upload_image false false false false emptyState "photo" "" 0).2 =
      Except.error UploadError.enrollmentRequired ∧
    UploadError.enrollmentRequired ≠ UploadError.unsupportedType :=
  ⟨rfl, rfl, by decide⟩

/-- C9 amended: once the enrollment checks pass, every upload whose
filename has an empty suffix (no dot, as in "photo", or a bare
leading-dot name, as in ".png") is rejected with the unsupported-type
error, whatever the body content, size, or I/O outcomes. -/
theorem C9_empty_suffix_rejected (r w d u : Bool) (st : UploadState)
    (f e : String) (sz : Nat) (he : e ≠ "") (hc : sanitize_enrollment e ≠ "")
    (hsuf : pathSuffix f = "") :
    upload_image r w d u st f e sz = (st, Except.error UploadError.unsupportedType) ∧
    pathSuffix "photo" = "" ∧ pathSuffix ".png" = "" := by
  refine ⟨?_, rfl, rfl⟩
  have hext : extLower f = "" := by
    rw [extLower, hsuf]
    rfl
  unfold upload_image
  rw [if_neg he, if_neg hc, if_pos (by rw [hext]; decide)]

/-- C9 witness: instantiated at the dotless name "photo" and the bare
dotfile name ".png" with enrollment "A". -/
theorem C9_empty_suffix_rejected_witness :
    ("A" ≠ "" ∧ sanitize_enrollment "A" ≠ "" ∧ pathSuffix "photo" = "") ∧
    ("A" ≠ "" ∧ sanitize_enrollment "A" ≠ "" ∧ pathSuffix ".png" = "") ∧
    upload_image false false false false emptyState "photo" "A" 3 =
      (emptyState, Except.error UploadError.unsupportedType) ∧
    upload_image true false true false emptyState ".png" "A" 3 =
      (emptyState, Except.error UploadError.unsupportedType) :=
  ⟨⟨by decide, by decide, by decide⟩, ⟨by decide, by decide, by decide⟩,
   (C9_empty_suffix_rejected false false false false emptyState "photo" "A" 3
     (by decide) (by decide) (by decide)).1,
   (C9_empty_suffix_rejected true false true false emptyState ".png" "A" 3
     (by decide) (by decide) (by decide)).1⟩

/-! Database-failure rollback theorems. -/

theorem mem_writeFile (folder : List String) (fname : String) :
    fname ∈ writeFile folder fname := by
  rw [writeFile]
  split_ifs with h
  · exact h
  · simp

theorem rollbackState_db (u : Bool) (st : UploadState) (clean ext : String) :
    (rollbackState u st clean ext).db = st.db := by
  cases u <;> rfl

theorem commitState_folder_writeFile (st : UploadState) (clean ext : String) :
    folderOf (commitState st clean ext) clean =
      writeFile (folderOf st clean) (nextFileName st clean ext) := by
  rw [commitState, writtenState]
  show (lookupA (setA st.folders clean _) clean).getD [] = _
  rw [lookupA_setA_self]
  rfl

theorem rollbackState_folder_restore (st : UploadState) (clean ext : String)
    (hnm : nextFileName st clean ext ∉ folderOf st clean) :
    folderOf (rollbackState false st clean ext) clean = folderOf st clean := by
  rw [rollbackState, if_neg (by decide : ¬ (false = true))]
  show (lookupA (setA st.folders clean _) clean).getD [] = _
  rw [lookupA_setA_self]
  show (writeFile (folderOf st clean) (nextFileName st clean ext)).erase
    (nextFileName st clean ext) = _
  rw [writeFile, if_neg hnm, List.erase_append_right _ hnm, List.erase_cons_head,
    List.append_nil]

theorem rollbackState_folder_orphan (st : UploadState) (clean ext : String) :
    nextFileName st clean ext ∈ folderOf (rollbackState true st clean ext) clean := by
  rw [rollbackState, if_pos rfl, writtenState]
  show nextFileName st clean ext ∈ (lookupA (setA st.folders clean _) clean).getD []
  rw [lookupA_setA_self]
  exact mem_writeFile _ _

theorem upload_dbFail (u : Bool) (st : UploadState) (f e : String) (sz : Nat)
    (he : e ≠ "") (hc : sanitize_enrollment e ≠ "") (hx : extLower f ∈ ALLOWED_EXTS)
    (hsz : sz ≤ MAX_FILE_BYTES)
    (hcnt : count_images_in_folder (folderOf st (sanitize_enrollment e)) ≤ 9) :
    upload_image false false true u st f e sz =
      (rollbackState u st (sanitize_enrollment e) (extLower f),
       Except.error UploadError.dbError) := by
  unfold upload_image
  rw [if_neg he, if_neg hc, if_neg (not_not_intro hx),
    if_neg (by decide : ¬ (false = true)), if_neg (by omega : ¬ sz > MAX_FILE_BYTES),
    if_neg (by omega :
      ¬ 10 ≤ count_images_in_folder (folderOf st (sanitize_enrollment e))),
    if_neg (by decide : ¬ (false = true)), if_pos rfl]

theorem upload_ok_inversion (r w d u : Bool) (st : UploadState) (f e : String)
    (sz : Nat) (st' : UploadState) (resp : UploadResponse)
    (h : upload_image r w d u st f e sz = (st', Except.ok resp)) :
    st' = commitState st (sanitize_enrollment e) (extLower f) ∧
    resp = UploadResponse.mk (nextFileName st (sanitize_enrollment e) (extLower f))
      (sanitize_enrollment e) := by
  unfold upload_image at h
  split_ifs at h
  all_goals
    first
      | exact Except.noConfusion (congrArg Prod.snd h)
      | exact ⟨(congrArg Prod.fst h).symm, (Except.ok.inj (congrArg Prod.snd h)).symm⟩

/-- C7: when the database upsert-and-increment fails after the file
was written, the handler rejects with the storage-failure error, the
students table is unchanged, and one best-effort deletion of the
just-written file is attempted (restoring the folder when the unlink
succeeds and the name was fresh, leaving the file orphaned when the
unlink fails too); moreover no half-done success is possible for any
I/O outcome: a success response implies the named file is in the
student folder and the student's counter was incremented by one. -/
theorem C7_db_failure_rollback_atomicity (u : Bool) (st : UploadState)
    (f e : String) (sz : Nat)
    (he : e ≠ "") (hc : sanitize_enrollment e ≠ "") (hx : extLower f ∈ ALLOWED_EXTS)
    (hsz : sz ≤ MAX_FILE_BYTES)
    (hcnt : count_images_in_folder (folderOf st (sanitize_enrollment e)) ≤ 9) :
    ((upload_image false false true u st f e sz).2 =
        Except.error UploadError.dbError ∧
     (upload_image false false true u st f e sz).1.db = st.db ∧
     (nextFileName st (sanitize_enrollment e) (extLower f) ∉
        folderOf st (sanitize_enrollment e) →
      folderOf (upload_image false false true false st f e sz).1
          (sanitize_enrollment e) = folderOf st (sanitize_enrollment e)) ∧
     nextFileName st (sanitize_enrollment e) (extLower f) ∈
       folderOf (upload_image false false true true st f e sz).1
         (sanitize_enrollment e)) ∧
    (∀ (r' w' d' u' : Bool) (st₀ st' : UploadState) (f₀ e₀ : String) (sz₀ : Nat)
       (resp : UploadResponse),
      upload_image r' w' d' u' st₀ f₀ e₀ sz₀ = (st', Except.ok resp) →
      resp.filename ∈ folderOf st' (sanitize_enrollment e₀) ∧
      dbCount st' (sanitize_enrollment e₀) = dbCount st₀ (sanitize_enrollment e₀) + 1 ∧
      resp.enrollment = sanitize_enrollment e₀) := by
  constructor
  · rw [upload_dbFail u st f e sz he hc hx hsz hcnt,
      upload_dbFail false st f e sz he hc hx hsz hcnt,
      upload_dbFail true st f e sz he hc hx hsz hcnt]
    exact ⟨rfl, rollbackState_db u st _ _,
      fun hnm => rollbackState_folder_restore st _ _ hnm,
      rollbackState_folder_orphan st _ _⟩
  · intro r' w' d' u' st₀ st' f₀ e₀ sz₀ resp h
    obtain ⟨hst, hresp⟩ := upload_ok_inversion r' w' d' u' st₀ f₀ e₀ sz₀ st' resp h
    subst hst
    subst hresp
    refine ⟨?_, commitState_dbCount_self st₀ _ _, rfl⟩
    rw [commitState_folder_writeFile]
    exact mem_writeFile _ _

/-- C7 witness: the hypotheses are satisfiable, e.g. a first upload of
x.png for enrollment "A" on the empty state with a failing commit. -/
theorem C7_db_failure_rollback_atomicity_witness :
    ("A" ≠ "" ∧ sanitize_enrollment "A" ≠ "" ∧ extLower "x.png" ∈ ALLOWED_EXTS ∧
     (9 : Nat) ≤ MAX_FILE_BYTES ∧
     count_images_in_folder (folderOf emptyState (sanitize_enrollment "A")) ≤ 9) ∧
    ((upload_image false false true false emptyState "x.png" "A" 9).2 =
       Except.error UploadError.dbError ∧
     (upload_image false false true false emptyState "x.png" "A" 9).1.db =
       emptyState.db ∧
     (nextFileName emptyState (sanitize_enrollment "A") (extLower "x.png") ∉
        folderOf emptyState (sanitize_enrollment "A") →
      folderOf (upload_image false false true false emptyState "x.png" "A" 9).1
          (sanitize_enrollment "A") =
        folderOf emptyState (sanitize_enrollment "A")) ∧
     nextFileName emptyState (sanitize_enrollment "A") (extLower "x.png") ∈
       folderOf (upload_image false false true true emptyState "x.png" "A" 9).1
         (sanitize_enrollment "A")) ∧
    (∀ (r' w' d' u' : Bool) (st₀ st' : UploadState) (f₀ e₀ : String) (sz₀ : Nat)
       (resp : UploadResponse),
      upload_image r' w' d' u' st₀ f₀ e₀ sz₀ = (st', Except.ok resp) →
      resp.filename ∈ folderOf st' (sanitize_enrollment e₀) ∧
      dbCount st' (sanitize_enrollment e₀) = dbCount st₀ (sanitize_enrollment e₀) + 1 ∧
      resp.enrollment = sanitize_enrollment e₀) :=
  ⟨⟨by decide, by decide, by decide, by decide, by decide⟩,
   (C7_db_failure_rollback_atomicity false emptyState "x.png" "A" 9
     (by decide) (by decide) (by decide) (by decide) (by decide)).1,
   (C7_db_failure_rollback_atomicity false emptyState "x.png" "A" 9
     (by decide) (by decide) (by decide) (by decide) (by decide)).2⟩

/-! Sequential-upload theorems. -/

theorem uploadSeq_cons (e : String) (st : UploadState) (f : String) (sz : Nat)
    (rest : List (String × Nat)) :
    uploadSeq e st ((f, sz) :: rest) =
      (match uploadOk st f e sz with
       | (st1, .ok _) => uploadSeq e st1 rest
       | (_, .error _) => none) := rfl

theorem extsOf_cons (f : String) (sz : Nat) (rest : List (String × Nat)) :
    extsOf ((f, sz) :: rest) = extLower f :: extsOf rest := rfl

theorem uploadSeq_ok (e : String) (he : e ≠ "") (hc : sanitize_enrollment e ≠ "") :
    ∀ (files : List (String × Nat)) (st : UploadState) (exts : List String),
      (∀ p ∈ files, validFile p) →
      folderOf st (sanitize_enrollment e) = seqFiles 1 exts →
      (∀ x ∈ exts, x ∈ ALLOWED_EXTS) →
      dbCount st (sanitize_enrollment e) = exts.length →
      exts.length + files.length ≤ 10 →
      keysNodup st.db →
      ∃ st', uploadSeq e st files = some st' ∧
        folderOf st' (sanitize_enrollment e) = seqFiles 1 (exts ++ extsOf files) ∧
        dbCount st' (sanitize_enrollment e) = exts.length + files.length ∧
        keysNodup st'.db := by
  intro files
  induction files with
  | nil =>
    intro st exts _ hfol hallow hdbc _ hn
    exact ⟨st, rfl, by simpa [extsOf] using hfol, by simpa using hdbc, hn⟩
  | cons p rest ih =>
    intro st exts hv hfol hallow hdbc hlen hn
    obtain ⟨f, sz⟩ := p
    have hvp : validFile (f, sz) := hv (f, sz) (List.mem_cons_self _ _)
    have hrestlen : exts.length + rest.length + 1 ≤ 10 := by
      rw [List.length_cons] at hlen
      omega
    have hcnt : count_images_in_folder (folderOf st (sanitize_enrollment e)) =
        exts.length := by
      rw [hfol]
      exact count_seqFiles hallow (by omega) (by omega)
    have hsucc := uploadOk_success st f e sz he hc hvp.1 hvp.2 (by omega)
    have hfol' : folderOf (commitState st (sanitize_enrollment e) (extLower f))
        (sanitize_enrollment e) = seqFiles 1 (exts ++ [extLower f]) :=
      commitState_folderOf_self hfol (by omega) hcnt
    have hallow' : ∀ x ∈ exts ++ [extLower f], x ∈ ALLOWED_EXTS := by
      intro x hxm
      rcases List.mem_append.mp hxm with hm | hm
      · exact hallow x hm
      · simp at hm
        rw [hm]
        exact hvp.1
    have hdbc' : dbCount (commitState st (sanitize_enrollment e) (extLower f))
        (sanitize_enrollment e) = (exts ++ [extLower f]).length := by
      rw [commitState_dbCount_self, hdbc, List.length_append]
      simp
    obtain ⟨st', hs, hf, hd, hn'⟩ :=
      ih (commitState st (sanitize_enrollment e) (extLower f)) (exts ++ [extLower f])
        (fun q hq => hv q (List.mem_cons_of_mem _ hq)) hfol' hallow' hdbc'
        (by rw [List.length_append]; simp; omega)
        (commitState_keysNodup hn)
    refine ⟨st', ?_, ?_, ?_, hn'⟩
    · rw [uploadSeq_cons, hsucc]
      exact hs
    · rw [extsOf_cons,
        (by rw [List.append_assoc]; rfl :
          exts ++ (extLower f :: extsOf rest) = (exts ++ [extLower f]) ++ extsOf rest)]
      exact hf
    · rw [hd, List.length_append, List.length_cons]
      simp
      omega

theorem uploadOk_limitReached (st : UploadState) (f e : String) (sz : Nat)
    (he : e ≠ "") (hc : sanitize_enrollment e ≠ "") (hx : extLower f ∈ ALLOWED_EXTS)
    (hsz : sz ≤ MAX_FILE_BYTES)
    (hcnt : 10 ≤ count_images_in_folder (folderOf st (sanitize_enrollment e))) :
    uploadOk st f e sz = (st, Except.error UploadError.limitReached) := by
  unfold uploadOk upload_image
  rw [if_neg he, if_neg hc, if_neg (not_not_intro hx),
    if_neg (by decide : ¬ (false = true)), if_neg (by omega : ¬ sz > MAX_FILE_BYTES),
    if_pos hcnt]

/-- C1: starting from a fresh enrollment (empty folder, no table row),
ten sequential valid uploads all succeed, leaving the student folder
holding exactly the files 01.<ext> through 10.<ext> (each sequence
number the count of existing allowed-extension files plus one,
zero-padded to two digits) and the student's image_count at exactly
10; an eleventh valid upload for the same enrollment is then rejected
with the limit-reached error and changes no state, so no new file is
created. -/
theorem C1_ten_uploads_then_limit (st : UploadState) (e : String)
    (files : List (String × Nat)) (f11 : String) (sz11 : Nat)
    (he : e ≠ "") (hc : sanitize_enrollment e ≠ "")
    (hfol : folderOf st (sanitize_enrollment e) = [])
    (hdb : lookupA st.db (sanitize_enrollment e) = none)
    (hn : keysNodup st.db)
    (hlen : files.length = 10)
    (hv : ∀ p ∈ files, validFile p)
    (hv11 : validFile (f11, sz11)) :
    ∃ st', uploadSeq e st files = some st' ∧
      folderOf st' (sanitize_enrollment e) = seqFiles 1 (extsOf files) ∧
      dbCount st' (sanitize_enrollment e) = 10 ∧
      uploadOk st' f11 e sz11 = (st', Except.error UploadError.limitReached) := by
  obtain ⟨st', hs, hf, hd, hn'⟩ := uploadSeq_ok e he hc files st [] hv
    (by rw [hfol]; rfl) (by simp) (by rw [dbCount, hdb]; rfl)
    (by simp [hlen]) hn
  rw [List.nil_append] at hf
  rw [List.length_nil, hlen] at hd
  have hallowF : ∀ x ∈ extsOf files, x ∈ ALLOWED_EXTS := by
    intro x hxm
    obtain ⟨p, hp, hpx⟩ := List.mem_map.mp hxm
    rw [← hpx]
    exact (hv p hp).1
  have hlenF : (extsOf files).length = 10 := by
    rw [extsOf, List.length_map, hlen]
  have hcnt11 : 10 ≤ count_images_in_folder (folderOf st' (sanitize_enrollment e)) := by
    rw [hf, count_seqFiles hallowF (by omega) (by omega), hlenF]
  have hd10 : dbCount st' (sanitize_enrollment e) = 10 := by omega
  exact ⟨st', hs, hf, hd10,
    uploadOk_limitReached st' f11 e sz11 he hc hv11.1 hv11.2 hcnt11⟩

/-- C1 witness: ten 7-byte x.png uploads for enrollment "A" on the
empty state, then an eleventh y.jpg upload. -/
theorem C1_ten_uploads_then_limit_witness :
    ("A" ≠ "" ∧ sanitize_enrollment "A" ≠ "" ∧
     folderOf emptyState (sanitize_enrollment "A") = [] ∧
     lookupA emptyState.db (sanitize_enrollment "A") = none ∧
     keysNodup emptyState.db ∧
     (List.replicate 10 ("x.png", 7)).length = 10 ∧
     (∀ p ∈ List.replicate 10 ("x.png", (7 : Nat)), validFile p) ∧
     validFile ("y.jpg", 9)) ∧
    (∃ st', uploadSeq "A" emptyState (List.replicate 10 ("x.png", 7)) = some st' ∧
      folderOf st' (sanitize_enrollment "A") =
        seqFiles 1 (extsOf (List.replicate 10 ("x.png", 7))) ∧
      dbCount st' (sanitize_enrollment "A") = 10 ∧
      uploadOk st' "y.jpg" "A" 9 = (st', Except.error UploadError.limitReached)) :=
  ⟨⟨by decide, by decide, by decide, by decide, by decide, by decide, by decide,
    by decide⟩,
   C1_ten_uploads_then_limit emptyState "A" (List.replicate 10 ("x.png", 7)) "y.jpg" 9
     (by decide) (by decide) (by decide) (by decide) (by decide) (by decide)
     (by decide) (by decide)⟩

/-- C2: after any sequence of sequential upload requests starting from
the empty state, every row of the students table has image_count at
most 10 and equal to the number of allowed-extension files physically
present in that student's folder. -/
theorem C2_count_invariant (ops : List (String × String × Nat)) (c : String) (n : Nat)
    (h : (c, n) ∈ (runUploads emptyState ops).db) :
    n ≤ 10 ∧
    n = count_images_in_folder (folderOf (runUploads emptyState ops) c) := by
  obtain ⟨hn, hfold⟩ := runUploads_good ops emptyState good_emptyState
  have hl : lookupA (runUploads emptyState ops).db c = some n :=
    lookupA_of_mem_nodup hn h
  obtain ⟨exts, hallow, hlen, hfol, hdbc⟩ := hfold c
  have hdn : dbCount (runUploads emptyState ops) c = n := by
    rw [dbCount, hl]
    rfl
  have hcount : count_images_in_folder (folderOf (runUploads emptyState ops) c) =
      exts.length := by
    rw [hfol]
    exact count_seqFiles hallow (by omega) (by omega)
  constructor
  · omega
  · rw [hcount]
    omega

/-- C2 witness: one successful upload for enrollment "A" puts the row
("A", 1) in the table, and the invariant holds for it. -/
theorem C2_count_invariant_witness :
    ("A", 1) ∈ (runUploads emptyState [("x.png", "A", 7)]).db ∧
    (1 ≤ 10 ∧
     1 = count_images_in_folder
           (folderOf (runUploads emptyState [("x.png", "A", 7)]) "A")) :=
  ⟨by decide, C2_count_invariant [("x.png", "A", 7)] "A" 1 (by decide)⟩

/-- C8: the student listing returns exactly the rows of the students
table as (enrollment, image_count) pairs, and after N successful
uploads (1 ≤ N ≤ 10) for a fresh enrollment the listing includes the
pair of the sanitized enrollment and N. -/
theorem C8_listing_after_uploads (st st' : UploadState) (e : String)
    (files : List (String × Nat)) (N : Nat)
    (he : e ≠ "") (hc : sanitize_enrollment e ≠ "")
    (hfol : folderOf st (sanitize_enrollment e) = [])
    (hdb : lookupA st.db (sanitize_enrollment e) = none)
    (hn : keysNodup st.db)
    (hv : ∀ p ∈ files, validFile p)
    (hlen : files.length = N) (hN1 : 1 ≤ N) (hN10 : N ≤ 10)
    (hrun : uploadSeq e st files = some st') :
    (∀ (c : String) (k : Nat),
      (c, k) ∈ list_students st' ↔ lookupA st'.db c = some k) ∧
    (sanitize_enrollment e, N) ∈ list_students st' := by
  obtain ⟨st'', hs, hf, hd, hn'⟩ := uploadSeq_ok e he hc files st [] hv
    (by rw [hfol]; rfl) (by simp) (by rw [dbCount, hdb]; rfl)
    (by simp; omega) hn
  rw [hs] at hrun
  have hst : st'' = st' := Option.some.inj hrun
  subst hst
  constructor
  · intro c k
    exact ⟨lookupA_of_mem_nodup hn', mem_of_lookupA⟩
  · rw [List.length_nil, hlen] at hd
    cases hlk : lookupA st''.db (sanitize_enrollment e) with
    | none =>
      rw [dbCount, hlk] at hd
      simp at hd
      omega
    | some m =>
      rw [dbCount, hlk] at hd
      simp at hd
      rw [(by omega : N = m)]
      exact mem_of_lookupA hlk

/-- C8 witness: three successful uploads for enrollment "A" from the
empty state make the listing include ("A", 3). -/
theorem C8_listing_after_uploads_witness :
    ("A" ≠ "" ∧ sanitize_enrollment "A" ≠ "" ∧
     folderOf emptyState (sanitize_enrollment "A") = [] ∧
     lookupA emptyState.db (sanitize_enrollment "A") = none ∧
     keysNodup emptyState.db ∧
     (∀ p ∈ List.replicate 3 ("x.png", (7 : Nat)), validFile p) ∧
     (List.replicate 3 ("x.png", (7 : Nat))).length = 3 ∧
     (1 : Nat) ≤ 3 ∧ (3 : Nat) ≤ 10 ∧
     uploadSeq "A" emptyState (List.replicate 3 ("x.png", 7)) =
       some (UploadState.mk [("A", ["01.png", "02.png", "03.png"])] [("A", 3)])) ∧
    ((∀ (c : String) (k : Nat),
       (c, k) ∈ list_students
           (UploadState.mk [("A", ["01.png", "02.png", "03.png"])] [("A", 3)]) ↔
       lookupA (UploadState.mk
           [("A", ["01.png", "02.png", "03.png"])] [("A", 3)]).db c = some k) ∧
     (sanitize_enrollment "A", 3) ∈ list_students
       (UploadState.mk [("A", ["01.png", "02.png", "03.png"])] [("A", 3)])) :=
  ⟨⟨by decide, by decide, by decide, by decide, by decide, by decide, by decide,
    by decide, by decide, by decide⟩,
   C8_listing_after_uploads emptyState
     (UploadState.mk [("A", ["01.png", "02.png", "03.png"])] [("A", 3)]) "A"
     (List.replicate 3 ("x.png", 7)) 3
     (by decide) (by decide) (by decide) (by decide) (by decide) (by decide)
     (by decide) (by decide) (by decide) (by decide)⟩
